import Mathlib

/-!
Verification of the durable-persistence layer of the node-coffee repository
(the embedded document store's storage and persistence modules).

The development shallowly embeds:
* `lib/storage.js` — `flushToStorage`, `crashSafeWriteFileLines`,
  `ensureDatafileIntegrity`;
* the persistence module — constructor validation, `treatRawData`,
  `treatRawStream`, `persistCachedDatabase`.

I/O is modelled by passing the outcome each underlying system call delivers
to its callback as an explicit parameter; the file-system state visible to
these operations (the datafile and its temp companion) is an explicit
record threaded through the definitions.
-/

/-- Error value delivered by a file-system call, carrying its `code`
string (for example "EISDIR", "EPERM"). -/
structure FsError where
  code : String
deriving DecidableEq

/-- Error value passed to `flushToStorage`'s callback: either the raw open
error (`callback(err)`) or the composite "Failed to flush to storage" error
carrying `errorOnFsync` and `errorOnClose`. -/
inductive FlushError where
  | openError (e : FsError)
  | failedToFlush (errorOnFsync : Option FsError) (errorOnClose : Option FsError)
deriving DecidableEq

/-- Observable outcome of a `flushToStorage` call: the callback is invoked
with `null`, the callback is invoked with an error, or the code throws an
uncaught TypeError (dereferencing `errFS.code` while `errFS` is null) and
the callback is never invoked. -/
inductive FlushOutcome where
  | callbackNull
  | callbackErr (e : FlushError)
  | typeError
deriving DecidableEq

/-- Embedding of `storage.flushToStorage` from `lib/storage.js`.
`isDir` is `options.isDir` (false when `options` is a plain string);
`openErr`, `fsyncErr` and `closeErr` are the outcomes the underlying
`fs.open`, `fs.fsync` and `fs.close` calls deliver.  The branch structure
mirrors the source: an open error is swallowed when its code is EISDIR on a
directory flush; otherwise, when fsync or close report an error, the guard
`(errFS.code === 'EPERM' || errFS.code === 'EISDIR') && options.isDir`
is evaluated — which dereferences `errFS.code` even when `errFS` is null
(fsync succeeded, close failed), throwing a TypeError. -/
def flushToStorage (isDir : Bool) (openErr fsyncErr closeErr : Option FsError) :
    FlushOutcome :=
  match openErr with
  | some err => if err.code = "EISDIR" ∧ isDir = true then .callbackNull
                else .callbackErr (.openError err)
  | none =>
    if fsyncErr.isSome ∨ closeErr.isSome then
      match fsyncErr with
      | none => .typeError
      | some errFS =>
        if (errFS.code = "EPERM" ∨ errFS.code = "EISDIR") ∧ isDir = true then .callbackNull
        else .callbackErr (.failedToFlush fsyncErr closeErr)
    else .callbackNull

/-- File-system state visible to the durability protocol: the content of
the target datafile and of its temp companion (`filename + '~'`); `none`
means the file does not exist. -/
structure FsState where
  target : Option String
  temp : Option String
deriving DecidableEq

/-- Content produced by `storage.writeFileLines`: each line followed by a
newline character. -/
def linesToContent (lines : List String) : String :=
  String.join (lines.map (fun line => line ++ "\n"))

/-- Outcomes delivered to the waterfall by the six steps of
`storage.crashSafeWriteFileLines` (`none` = the step's callback reported
success).  `tempContentOnWriteError` is the unspecified content the temp
file is left with when `writeFileLines` fails midway. -/
structure RewriteOutcomes where
  flushDirBefore : Option FsError
  flushTarget : Option FsError
  writeTemp : Option FsError
  tempContentOnWriteError : Option String
  flushTemp : Option FsError
  rename : Option FsError
  flushDirAfter : Option FsError
deriving DecidableEq

/-- Embedding of `storage.crashSafeWriteFileLines` from `lib/storage.js`:
the six-step waterfall (flush parent dir; flush target if it exists; write
the new content to `filename + '~'`; flush the temp file; rename the temp
file over the target; flush parent dir again), short-circuiting to the
final callback on the first step that reports an error.  Returns the final
file-system state together with the error passed to the callback. -/
def crashSafeWriteFileLines (fs : FsState) (lines : List String)
    (o : RewriteOutcomes) : FsState × Option FsError :=
  match o.flushDirBefore with
  | some e => (fs, some e)
  | none =>
    match (if fs.target.isSome then o.flushTarget else none) with
    | some e => (fs, some e)
    | none =>
      match o.writeTemp with
      | some e => ({ fs with temp := o.tempContentOnWriteError }, some e)
      | none =>
        let fs1 : FsState := { fs with temp := some (linesToContent lines) }
        match o.flushTemp with
        | some e => (fs1, some e)
        | none =>
          match o.rename with
          | some e => (fs1, some e)
          | none =>
            let fs2 : FsState := { target := fs1.temp, temp := none }
            match o.flushDirAfter with
            | some e => (fs2, some e)
            | none => (fs2, none)

/-- First error reported by the steps of `crashSafeWriteFileLines` that
precede the rename (flush parent dir, flush target when it exists, write
temp, flush temp); `none` when all of them succeed. -/
def preRenameFailure (fs : FsState) (o : RewriteOutcomes) : Option FsError :=
  match o.flushDirBefore with
  | some e => some e
  | none =>
    match (if fs.target.isSome then o.flushTarget else none) with
    | some e => some e
    | none =>
      match o.writeTemp with
      | some e => some e
      | none => o.flushTemp

/-- Payload of a `$$indexCreated` directive: the indexed field name (which
the source allows to be null) and the uniqueness/sparseness flags. -/
structure IndexCreatedDirective where
  fieldName : Option String
  unique : Bool
  sparse : Bool
deriving DecidableEq

/-- Result of deserializing one log line, restricted to the fields the
replay loop inspects.  `docId = some k` models a document whose `_id`
field is present and truthy with value `k`; `deleted` models
`$$deleted === true`; `indexRemoved = some f` models a `$$indexRemoved`
field of string type.  The deserializer itself (`model.deserialize`
composed with `beforeDeserialization`) is kept abstract. -/
structure Doc where
  docId : Option String
  deleted : Bool
  indexCreated : Option IndexCreatedDirective
  indexRemoved : Option String
deriving DecidableEq

/-- Lookup in a JavaScript-object-like ordered key/value list (first entry
with the key; entries built by `jset`/`jdel` have unique keys). -/
def jget {α : Type} (m : List (String × α)) (k : String) : Option α :=
  match m with
  | [] => none
  | p :: rest => if p.1 = k then some p.2 else jget rest k

/-- Key-membership test for the ordered key/value list. -/
def jmem {α : Type} (m : List (String × α)) (k : String) : Bool :=
  match m with
  | [] => false
  | p :: rest => if p.1 = k then true else jmem rest k

/-- Assignment `m[k] = v` with JavaScript object semantics: an existing
key keeps its position and gets the new value, a fresh key is appended. -/
def jset {α : Type} (m : List (String × α)) (k : String) (v : α) :
    List (String × α) :=
  if jmem m k then m.map (fun p => if p.1 = k then (k, v) else p)
  else m ++ [(k, v)]

/-- Deletion `delete m[k]` for the ordered key/value list. -/
def jdel {α : Type} (m : List (String × α)) (k : String) : List (String × α) :=
  match m with
  | [] => []
  | p :: rest => if p.1 = k then jdel rest k else p :: jdel rest k

/-- State threaded through the replay loop shared by `treatRawData` and
`treatRawStream`: the `dataById` object, the `indexes` object, and the
corrupt-line counter (which starts at `-1`). -/
structure ReplayState where
  dataById : List (String × Doc)
  indexes : List (String × IndexCreatedDirective)
  corruptItems : Int
deriving DecidableEq

/-- Condition `doc.$$indexCreated && doc.$$indexCreated.fieldName != null`
from the replay loop, returning the field name and the directive when it
holds. -/
def validIndexCreated (doc : Doc) : Option (String × IndexCreatedDirective) :=
  match doc.indexCreated with
  | some d =>
    match d.fieldName with
    | some f => some (f, d)
    | none => none
  | none => none

/-- Body of the replay loop shared by `treatRawData` and `treatRawStream`:
`parsed = none` models a line on which deserialization threw (incrementing
the corrupt counter); otherwise the parsed document is dispatched on
`_id` / `$$deleted` / `$$indexCreated` / `$$indexRemoved` exactly as in
the source's if/else-if chain. -/
def treatLine (st : ReplayState) (parsed : Option Doc) : ReplayState :=
  match parsed with
  | none => { st with corruptItems := st.corruptItems + 1 }
  | some doc =>
    match doc.docId with
    | some k =>
      if doc.deleted then { st with dataById := jdel st.dataById k }
      else { st with dataById := jset st.dataById k doc }
    | none =>
      match validIndexCreated doc with
      | some fd => { st with indexes := jset st.indexes fd.1 fd.2 }
      | none =>
        match doc.indexRemoved with
        | some f => { st with indexes := jdel st.indexes f }
        | none => st

/-- Initial replay state: empty objects and a corrupt counter of `-1`
(the customary trailing blank line is exempted). -/
def initialReplayState : ReplayState := ⟨[], [], -1⟩

/-- Replay of a list of parsed lines, in order, from the initial state. -/
def replayDocs (parsed : List (Option Doc)) : ReplayState :=
  parsed.foldl treatLine initialReplayState

/-- Value returned by a successful load: `Object.values(dataById)` and the
`indexes` object. -/
structure TreatResult where
  data : List Doc
  indexes : List (String × IndexCreatedDirective)
deriving DecidableEq

/-- Embedding of `Persistence.prototype.treatRawData`: split the raw blob
on newlines, replay every line in order, then fail with the
data-integrity error when `corruptItems / data.length` strictly exceeds
the corruption threshold (and return no state at all in that case).
`parse` is the composition of `beforeDeserialization` and
`model.deserialize`, returning `none` on a line that throws. -/
def treatRawData (parse : String → Option Doc) (corruptAlertThreshold : ℚ)
    (rawData : String) : Except Unit TreatResult :=
  let data := rawData.splitOn "\n"
  let st := replayDocs (data.map parse)
  if data.length > 0 ∧
      (st.corruptItems : ℚ) / (data.length : ℚ) > corruptAlertThreshold then
    .error ()
  else
    .ok ⟨st.dataById.map Prod.snd, st.indexes⟩

/-- Modelled from the spec: the `./byline` line splitter (its source is not
in the repository snapshot).  Per the spec, the streaming variant consumes
"an ordered sequence of lines" equivalent to the blob's lines, so the lines
delivered for a chunked stream are those of the concatenated text. -/
def bylineLines (chunks : List String) : List String :=
  (String.join chunks).splitOn "\n"

/-- Embedding of `Persistence.prototype.treatRawStream`: replay each line
delivered by the line stream as it arrives, counting lines incrementally,
then at end-of-stream fail with the data-integrity error when
`corruptItems / length` strictly exceeds the threshold.  The single
returned value models that the callback is invoked exactly once, either
with the error or with the result. -/
def treatRawStream (parse : String → Option Doc) (corruptAlertThreshold : ℚ)
    (chunks : List String) : Except Unit TreatResult :=
  let acc := (bylineLines chunks).foldl
    (fun (acc : ReplayState × Nat) line => (treatLine acc.1 (parse line), acc.2 + 1))
    (initialReplayState, 0)
  if acc.2 > 0 ∧
      (acc.1.corruptItems : ℚ) / (acc.2 : ℚ) > corruptAlertThreshold then
    .error ()
  else
    .ok ⟨acc.1.dataById.map Prod.snd, acc.1.indexes⟩

/-- Effect of one parsed line on the materialized record for identifier
`k`: the document itself when it carries `_id = k` (tombstone or not),
nothing otherwise. -/
def idActionOf (k : String) (parsed : Option Doc) : Option Doc :=
  match parsed with
  | some d => if d.docId = some k then some d else none
  | none => none

/-- Last line of the log that affects identifier `k` (later lines take
priority), expressed structurally: the tail of the list wins over the
head. -/
def lastDocFor (k : String) : List (Option Doc) → Option Doc
  | [] => none
  | p :: rest =>
    match lastDocFor k rest with
    | some d => some d
    | none => idActionOf k p

/-- Action a single line performs on the index directive for field `f`:
creation with a directive, removal, or nothing.  A line carrying a truthy
`_id` never touches the indexes. -/
inductive IdxAction where
  | created (d : IndexCreatedDirective)
  | removed
deriving DecidableEq

/-- Effect of one parsed line on the index directive for field `f`. -/
def idxActionOf (f : String) (parsed : Option Doc) : Option IdxAction :=
  match parsed with
  | some d =>
    if d.docId.isSome then none
    else
      match validIndexCreated d with
      | some fd => if fd.1 = f then some (.created fd.2) else none
      | none =>
        match d.indexRemoved with
        | some f2 => if f2 = f then some .removed else none
        | none => none
  | none => none

/-- Last index action of the log for field `f` (later lines take
priority). -/
def lastIdxFor (f : String) : List (Option Doc) → Option IdxAction
  | [] => none
  | p :: rest =>
    match lastIdxFor f rest with
    | some a => some a
    | none => idxActionOf f p

/-- Embedding of `storage.ensureDatafileIntegrity` from `lib/storage.js`:
if the target exists, change nothing; otherwise, if the temp file exists,
rename it over the target; otherwise create an empty target.  Backend
errors are propagated unchanged by the source and are not modelled. -/
def ensureDatafileIntegrity (fs : FsState) : FsState :=
  if fs.target.isSome then fs
  else if fs.temp.isSome then { target := fs.temp, temp := none }
  else { fs with target := some "" }

/-- Uniqueness/sparseness flags of an in-memory index
(`db.indexes[fieldName].unique` / `.sparse`). -/
structure IndexOpts where
  unique : Bool
  sparse : Bool
deriving DecidableEq

/-- Lines pushed by `Persistence.prototype.persistCachedDatabase`: one
serialized line per document of `db.getAllData()`, then one serialized
`$$indexCreated` line per key of `db.indexes` other than `_id`.  `ser`
models `afterSerialization (model.serialize doc)` and `serIdx` models the
same composition applied to the `$$indexCreated` wrapper. -/
def compactionLines {α : Type} (allData : List α)
    (indexes : List (String × IndexOpts)) (ser : α → String)
    (serIdx : String → IndexOpts → String) : List String :=
  allData.map ser ++
    (indexes.filter (fun p => !(p.1 == "_id"))).map (fun p => serIdx p.1 p.2)

/-- Observable outcome of `persistCachedDatabase`: the final file-system
state, whether the `compaction.done` event was emitted, and the error
passed to the callback. -/
structure PersistResult where
  fs : FsState
  emitted : Bool
  err : Option FsError
deriving DecidableEq

/-- Embedding of `Persistence.prototype.persistCachedDatabase`: return
immediately in in-memory-only mode; otherwise build the compaction lines,
hand them to `crashSafeWriteFileLines`, and on success emit
`compaction.done` before calling back with `null`. -/
def persistCachedDatabase {α : Type} (inMemoryOnly : Bool) (allData : List α)
    (indexes : List (String × IndexOpts)) (ser : α → String)
    (serIdx : String → IndexOpts → String) (fs : FsState)
    (o : RewriteOutcomes) : PersistResult :=
  if inMemoryOnly then ⟨fs, false, none⟩
  else
    let r := crashSafeWriteFileLines fs (compactionLines allData indexes ser serIdx) o
    match r.2 with
    | some e => ⟨r.1, false, some e⟩
    | none => ⟨r.1, true, none⟩

/-- Fatal configuration errors thrown by the `Persistence` constructor. -/
inductive ConfigError where
  | reservedSuffix
  | serializationHookWithoutDeserialization
  | deserializationHookWithoutSerialization
  | hooksNotInverse
deriving DecidableEq

/-- Options consumed by the `Persistence` constructor; `filename` is
`options.db.filename` (`none` models a missing filename). -/
structure PersistenceOptions where
  inMemoryOnly : Bool
  filename : Option String
  corruptAlertThreshold : Option ℚ
  afterSerialization : Option (String → String)
  beforeDeserialization : Option (String → String)

/-- Condition `this.filename && this.filename.charAt(this.filename.length - 1) === '~'`
from the constructor: the filename is truthy (present and nonempty) and
its last character is the reserved suffix. -/
def endsInTilde (filename : Option String) : Bool :=
  match filename with
  | some s => !(s == "") && (s.back == '~')
  | none => false

/-- Hook-inverse probe of the constructor: for every length `i` from 1 to
29 and ten samples `j` per length, check
`beforeDeserialization (afterSerialization sample) = sample`.  The random
string generator `customUtils.uid` is kept abstract as `sampler`
(length, sample number). -/
def hookProbeFails (after before : String → String)
    (sampler : Nat → Nat → String) : Bool :=
  (List.range' 1 29).any fun i =>
    (List.range 10).any fun j =>
      let randomString := sampler i j
      before (after randomString) != randomString

/-- Constructed persistence state (fields the constructor installs). -/
structure Persistence where
  inMemoryOnly : Bool
  filename : Option String
  corruptAlertThreshold : ℚ
  afterSerialization : String → String
  beforeDeserialization : String → String

/-- Embedding of the `Persistence` constructor: threshold defaulting,
reserved-suffix check (guarded by `!this.inMemoryOnly && this.filename`),
paired-or-neither hook checks, hook defaulting to the identity, and the
hook-inverse probe; the first violated check throws. -/
def persistenceConstructor (sampler : Nat → Nat → String)
    (options : PersistenceOptions) : Except ConfigError Persistence :=
  if options.inMemoryOnly = false ∧ endsInTilde options.filename = true then
    .error .reservedSuffix
  else if options.afterSerialization.isSome ∧ options.beforeDeserialization.isNone then
    .error .serializationHookWithoutDeserialization
  else if options.afterSerialization.isNone ∧ options.beforeDeserialization.isSome then
    .error .deserializationHookWithoutSerialization
  else if hookProbeFails (options.afterSerialization.getD id)
      (options.beforeDeserialization.getD id) sampler then
    .error .hooksNotInverse
  else
    .ok ⟨options.inMemoryOnly, options.filename,
      options.corruptAlertThreshold.getD (0.1 : ℚ),
      options.afterSerialization.getD id, options.beforeDeserialization.getD id⟩

theorem jget_append {α : Type} (m m2 : List (String × α)) (k : String) :
    jget (m ++ m2) k =
      (match jget m k with | some v => some v | none => jget m2 k) := by
  induction m with
  | nil => rfl
  | cons p rest ih =>
    by_cases h : p.1 = k
    · simp [jget, h]
    · simp [jget, h, ih]

theorem jget_eq_none_of_jmem_false {α : Type} (m : List (String × α)) (k : String)
    (h : jmem m k = false) : jget m k = none := by
  induction m with
  | nil => rfl
  | cons p rest ih =>
    by_cases hp : p.1 = k
    · simp [jmem, hp] at h
    · simp [jmem, hp] at h
      simp [jget, hp, ih h]

theorem jget_map_set_self {α : Type} (m : List (String × α)) (k : String) (v : α)
    (h : jmem m k = true) :
    jget (m.map (fun p => if p.1 = k then (k, v) else p)) k = some v := by
  induction m with
  | nil => simp [jmem] at h
  | cons p rest ih =>
    by_cases hp : p.1 = k
    · simp [jget, hp]
    · simp [jmem, hp] at h
      simp [jget, hp, ih h]

theorem jget_map_set_ne {α : Type} (m : List (String × α)) (k k2 : String) (v : α)
    (h : k2 ≠ k) :
    jget (m.map (fun p => if p.1 = k2 then (k2, v) else p)) k = jget m k := by
  induction m with
  | nil => rfl
  | cons p rest ih =>
    by_cases hp : p.1 = k2
    · simp [jget, hp, h, ih]
    · simp [jget, hp, ih]

theorem jget_jset_self {α : Type} (m : List (String × α)) (k : String) (v : α) :
    jget (jset m k v) k = some v := by
  unfold jset
  by_cases h : jmem m k
  · rw [if_pos h]
    exact jget_map_set_self m k v h
  · rw [if_neg h]
    rw [jget_append]
    rw [jget_eq_none_of_jmem_false m k (by simpa using h)]
    simp [jget]

theorem jget_jset_ne {α : Type} (m : List (String × α)) (k k2 : String) (v : α)
    (h : k2 ≠ k) : jget (jset m k2 v) k = jget m k := by
  unfold jset
  by_cases hm : jmem m k2
  · rw [if_pos hm]
    exact jget_map_set_ne m k k2 v h
  · rw [if_neg hm]
    rw [jget_append]
    rcases hg : jget m k with _ | w
    · simp [jget, h]
    · simp

theorem jget_jdel_self {α : Type} (m : List (String × α)) (k : String) :
    jget (jdel m k) k = none := by
  induction m with
  | nil => rfl
  | cons p rest ih =>
    by_cases hp : p.1 = k
    · simp [jdel, hp, ih]
    · simp [jdel, hp, jget, ih]

theorem jget_jdel_ne {α : Type} (m : List (String × α)) (k k2 : String)
    (h : k2 ≠ k) : jget (jdel m k2) k = jget m k := by
  induction m with
  | nil => rfl
  | cons p rest ih =>
    by_cases hp : p.1 = k2
    · simp [jdel, hp, jget, h, ih]
    · simp [jdel, hp, jget, ih]


theorem treatLine_dataById_of_docId_none (st : ReplayState) (doc : Doc)
    (h : doc.docId = none) : (treatLine st (some doc)).dataById = st.dataById := by
  obtain ⟨did, del, ic, ir⟩ := doc
  simp only at h
  subst h
  rcases ic with _ | ⟨fn, u, sp⟩
  · rcases ir with _ | f <;> rfl
  · rcases fn with _ | f2
    · rcases ir with _ | f <;> rfl
    · rfl

theorem treatLine_indexes_of_docId_some (st : ReplayState) (doc : Doc)
    (k : String) (h : doc.docId = some k) :
    (treatLine st (some doc)).indexes = st.indexes := by
  obtain ⟨did, del, ic, ir⟩ := doc
  simp only at h
  subst h
  rcases del with _ | _ <;> rfl

theorem treatLine_corruptItems (st : ReplayState) (p : Option Doc) :
    (treatLine st p).corruptItems =
      st.corruptItems + (if p.isNone then 1 else 0) := by
  rcases p with _ | ⟨did, del, ic, ir⟩
  · rfl
  · show _ = st.corruptItems + 0
    rcases did with _ | k
    · rcases ic with _ | ⟨fn, u, sp⟩
      · rcases ir with _ | f <;> simp [treatLine, validIndexCreated]
      · rcases fn with _ | f2
        · rcases ir with _ | f <;> simp [treatLine, validIndexCreated]
        · simp [treatLine, validIndexCreated]
    · rcases del with _ | _ <;> simp [treatLine]

theorem foldl_treatLine_corruptItems (l : List (Option Doc)) :
    ∀ st : ReplayState, (l.foldl treatLine st).corruptItems =
      st.corruptItems + (l.countP Option.isNone : Int) := by
  induction l with
  | nil => intro st; simp
  | cons p rest ih =>
    intro st
    show (rest.foldl treatLine (treatLine st p)).corruptItems = _
    rw [ih, treatLine_corruptItems, List.countP_cons]
    rcases p with _ | d
    · simp
      omega
    · simp

theorem foldl_treatLine_jget_dataById (k : String) (l : List (Option Doc)) :
    ∀ st : ReplayState, jget (l.foldl treatLine st).dataById k =
      (match lastDocFor k l with
       | some d => if d.deleted then none else some d
       | none => jget st.dataById k) := by
  induction l with
  | nil => intro st; rfl
  | cons p rest ih =>
    intro st
    show jget (rest.foldl treatLine (treatLine st p)).dataById k = _
    rw [ih]
    rcases hl : lastDocFor k rest with _ | d
    · have hcons : lastDocFor k (p :: rest) = idActionOf k p := by
        unfold lastDocFor
        rw [hl]
      rw [hcons]
      rcases p with _ | ⟨did, del, ic, ir⟩
      · rfl
      · rcases did with _ | k2
        · rw [treatLine_dataById_of_docId_none st ⟨none, del, ic, ir⟩ rfl]
          simp [idActionOf]
        · rcases del with _ | _
          · by_cases hk : k2 = k
            · subst hk
              simp [treatLine, idActionOf, jget_jset_self]
            · simp [treatLine, idActionOf, hk, jget_jset_ne _ _ _ _ hk]
          · by_cases hk : k2 = k
            · subst hk
              simp [treatLine, idActionOf, jget_jdel_self]
            · simp [treatLine, idActionOf, hk, jget_jdel_ne _ _ _ hk]
    · have hcons : lastDocFor k (p :: rest) = some d := by
        unfold lastDocFor
        rw [hl]
      rw [hcons]

theorem foldl_treatLine_jget_indexes (f : String) (l : List (Option Doc)) :
    ∀ st : ReplayState, jget (l.foldl treatLine st).indexes f =
      (match lastIdxFor f l with
       | some (.created d) => some d
       | some .removed => none
       | none => jget st.indexes f) := by
  induction l with
  | nil => intro st; rfl
  | cons p rest ih =>
    intro st
    show jget (rest.foldl treatLine (treatLine st p)).indexes f = _
    rw [ih]
    rcases hl : lastIdxFor f rest with _ | a
    · have hcons : lastIdxFor f (p :: rest) = idxActionOf f p := by
        unfold lastIdxFor
        rw [hl]
      rw [hcons]
      rcases p with _ | ⟨did, del, ic, ir⟩
      · rfl
      · rcases did with _ | k2
        · rcases ic with _ | ⟨fn, u, sp⟩
          · rcases ir with _ | f2
            · rfl
            · by_cases hf : f2 = f
              · subst hf
                simp [treatLine, idxActionOf, validIndexCreated, jget_jdel_self]
              · simp [treatLine, idxActionOf, validIndexCreated, hf,
                  jget_jdel_ne _ _ _ hf]
          · rcases fn with _ | f2
            · rcases ir with _ | f3
              · rfl
              · by_cases hf : f3 = f
                · subst hf
                  simp [treatLine, idxActionOf, validIndexCreated, jget_jdel_self]
                · simp [treatLine, idxActionOf, validIndexCreated, hf,
                    jget_jdel_ne _ _ _ hf]
            · by_cases hf : f2 = f
              · subst hf
                simp [treatLine, idxActionOf, validIndexCreated, jget_jset_self]
              · simp [treatLine, idxActionOf, validIndexCreated, hf,
                  jget_jset_ne _ _ _ _ hf]
        · rw [treatLine_indexes_of_docId_some st ⟨some k2, del, ic, ir⟩ k2 rfl]
          simp [idxActionOf]
    · have hcons : lastIdxFor f (p :: rest) = some a := by
        unfold lastIdxFor
        rw [hl]
      rw [hcons]
      cases a <;> rfl

theorem splitOnAux_length_lt (s sep : String) (b i j : String.Pos) (r : List String) :
    r.length < (String.splitOnAux s sep b i j r).length := by
  induction b, i, j, r using String.splitOnAux.induct s sep with
  | case1 b i j r h =>
    rw [String.splitOnAux, if_pos h]
    simp
  | case2 b i j r h1 h2 i2 j2 h3 ih =>
    rw [String.splitOnAux, if_neg h1, if_pos h2, if_pos h3]
    exact Nat.lt_of_le_of_lt (by simp) ih
  | case3 b i j r h1 h2 i2 j2 h3 ih =>
    rw [String.splitOnAux, if_neg h1, if_pos h2, if_neg h3]
    exact ih
  | case4 b i j r h1 h2 ih =>
    rw [String.splitOnAux, if_neg h1, if_neg h2]
    exact ih

theorem splitOn_length_pos (s sep : String) : 0 < (s.splitOn sep).length := by
  rw [String.splitOn]
  split
  · simp
  · exact splitOnAux_length_lt s sep 0 0 0 []

theorem foldl_treatLine_counting (parse : String → Option Doc) (l : List String) :
    ∀ (st : ReplayState) (n : Nat),
      l.foldl (fun (acc : ReplayState × Nat) line =>
          (treatLine acc.1 (parse line), acc.2 + 1)) (st, n) =
        ((l.map parse).foldl treatLine st, n + l.length) := by
  induction l with
  | nil => intro st n; simp
  | cons line rest ih =>
    intro st n
    show rest.foldl _ (treatLine st (parse line), n + 1) = _
    rw [ih]
    simp only [List.map_cons, List.foldl_cons, List.length_cons, Prod.mk.injEq]
    exact ⟨trivial, by omega⟩

theorem crashSafeWriteFileLines_target_of_ok (fs : FsState) (lines : List String)
    (o : RewriteOutcomes) (h : (crashSafeWriteFileLines fs lines o).2 = none) :
    (crashSafeWriteFileLines fs lines o).1.target = some (linesToContent lines) := by
  obtain ⟨t, tmp⟩ := fs
  obtain ⟨o1, o2, o3, o4, o5, o6, o7⟩ := o
  rcases o1 with _ | e1 <;> rcases t with _ | c <;> rcases o2 with _ | e2 <;>
    rcases o3 with _ | e3 <;> rcases o5 with _ | e5 <;> rcases o6 with _ | e6 <;>
    rcases o7 with _ | e7 <;>
    first
      | rfl
      | exact Option.noConfusion h

/-- C1: `crashSafeWriteFileLines` runs its six steps in strict sequence and
short-circuits on the first hard failure: if any step before the rename
fails, that error is surfaced and the previous target content is unchanged;
the target content is modified only by the rename step, and when it does
change, every step up to the rename succeeded and the target holds exactly
the freshly written lines. -/
theorem crashSafeWriteFileLines_atomic (fs : FsState) (lines : List String)
    (o : RewriteOutcomes) :
    ((preRenameFailure fs o).isSome = true →
      (crashSafeWriteFileLines fs lines o).2 = preRenameFailure fs o ∧
      (crashSafeWriteFileLines fs lines o).1.target = fs.target) ∧
    ((crashSafeWriteFileLines fs lines o).1.target ≠ fs.target →
      preRenameFailure fs o = none ∧ o.rename = none ∧
      (crashSafeWriteFileLines fs lines o).1.target =
        some (linesToContent lines)) := by
  obtain ⟨t, tmp⟩ := fs
  obtain ⟨o1, o2, o3, o4, o5, o6, o7⟩ := o
  rcases o1 with _ | e1 <;> rcases t with _ | c <;> rcases o2 with _ | e2 <;>
    rcases o3 with _ | e3 <;> rcases o5 with _ | e5 <;> rcases o6 with _ | e6 <;>
    rcases o7 with _ | e7 <;>
    constructor <;> intro h <;>
    first
      | exact ⟨rfl, rfl⟩
      | exact ⟨rfl, rfl, rfl⟩
      | exact absurd rfl h
      | exact Bool.noConfusion h

/-- C1 witness: concrete run where the flush of the freshly written temp
file fails: the error is surfaced and the target keeps its old content. -/
theorem crashSafeWriteFileLines_atomic_witness :
    (crashSafeWriteFileLines ⟨some "old", none⟩ ["a"]
        ⟨none, none, none, none, some ⟨"EIO"⟩, none, none⟩).2 =
      preRenameFailure ⟨some "old", none⟩
        ⟨none, none, none, none, some ⟨"EIO"⟩, none, none⟩ ∧
    (crashSafeWriteFileLines ⟨some "old", none⟩ ["a"]
        ⟨none, none, none, none, some ⟨"EIO"⟩, none, none⟩).1.target =
      some "old" :=
  (crashSafeWriteFileLines_atomic ⟨some "old", none⟩ ["a"]
    ⟨none, none, none, none, some ⟨"EIO"⟩, none, none⟩).1 rfl

/-- C2: the startup recovery check: if the target datafile exists, nothing
changes; if the target is missing and the temp file exists, the temp file
is renamed over the target (its content becomes the datafile); if neither
exists, an empty target is created. -/
theorem ensureDatafileIntegrity_cases (fs : FsState) :
    (fs.target.isSome = true → ensureDatafileIntegrity fs = fs) ∧
    (∀ c : String, fs.target = none → fs.temp = some c →
      ensureDatafileIntegrity fs = ⟨some c, none⟩) ∧
    (fs.target = none → fs.temp = none →
      ensureDatafileIntegrity fs = ⟨some "", none⟩) := by
  refine ⟨?_, ?_, ?_⟩
  · intro h
    unfold ensureDatafileIntegrity
    rw [if_pos h]
  · intro c ht htmp
    unfold ensureDatafileIntegrity
    rw [ht, htmp]
    simp
  · intro ht htmp
    unfold ensureDatafileIntegrity
    rw [ht, htmp]
    simp

/-- C2 witness: with the target missing and a temp file present, the temp
file content is promoted to the datafile. -/
theorem ensureDatafileIntegrity_cases_witness :
    ensureDatafileIntegrity ⟨none, some "docs"⟩ = ⟨some "docs", none⟩ :=
  (ensureDatafileIntegrity_cases ⟨none, some "docs"⟩).2.1 "docs" rfl rfl

/-- C8: `flushToStorage` reports success exactly on the recognized
flush-unsupported signatures: an open failure with code EISDIR on a
directory flush, or an fsync failure with code EPERM or EISDIR on a
directory flush; every other open or fsync failure is surfaced through the
callback as an error. -/
theorem flushToStorage_unsupported_signatures (isDir : Bool)
    (openErr fsyncErr closeErr : Option FsError) :
    (∀ e : FsError, openErr = some e →
      flushToStorage isDir openErr fsyncErr closeErr =
        (if e.code = "EISDIR" ∧ isDir = true then .callbackNull
         else .callbackErr (.openError e))) ∧
    (openErr = none → ∀ e : FsError, fsyncErr = some e →
      flushToStorage isDir openErr fsyncErr closeErr =
        (if (e.code = "EPERM" ∨ e.code = "EISDIR") ∧ isDir = true then
          .callbackNull
         else .callbackErr (.failedToFlush (some e) closeErr))) := by
  constructor
  · intro e he
    subst he
    rfl
  · intro ho e he
    subst ho
    subst he
    simp only [flushToStorage]
    have hcond : (some e).isSome = true ∨ closeErr.isSome = true := Or.inl rfl
    rw [if_pos hcond]

/-- C8 witness: a directory flush whose fsync fails with EPERM is treated
as success. -/
theorem flushToStorage_unsupported_signatures_witness :
    flushToStorage true none (some ⟨"EPERM"⟩) none = .callbackNull := by
  rw [(flushToStorage_unsupported_signatures true none (some ⟨"EPERM"⟩) none).2
    rfl ⟨"EPERM"⟩ rfl]
  decide

/-- C9: evaluation showing the claim fails on the code: when open and fsync
succeed but close fails, the guard dereferences `errFS.code` with `errFS`
null, so `flushToStorage` throws a TypeError instead of invoking its
callback with an error. -/
theorem flushToStorage_close_failure_throws :
    flushToStorage false none none (some ⟨"EBADF"⟩) = .typeError := rfl

/-- C3: replay applies lines strictly in order and the materialized result
depends only on the last effective line per key: for any identifier `k`,
the record replay produces (via `replayDocs`, the loop underlying
`treatRawData`) is determined by the last line carrying `_id = k` — the
document itself for a primary-record line, removal for a tombstone — and
for any field name `f`, the index directive is determined by the last
index-creation or index-removal line for `f`. -/
theorem replayDocs_last_line_wins (parsed : List (Option Doc)) (k f : String) :
    jget (replayDocs parsed).dataById k =
      (match lastDocFor k parsed with
       | some d => if d.deleted then none else some d
       | none => none) ∧
    jget (replayDocs parsed).indexes f =
      (match lastIdxFor f parsed with
       | some (.created d) => some d
       | some .removed => none
       | none => none) := by
  constructor
  · unfold replayDocs
    rw [foldl_treatLine_jget_dataById]
    rcases lastDocFor k parsed with _ | d <;> rfl
  · unfold replayDocs
    rw [foldl_treatLine_jget_indexes]
    rcases lastIdxFor f parsed with _ | a
    · rfl
    · cases a <;> rfl

/-- C10: a line that deserializes successfully but carries no truthy
identifier, no index-creation directive with a non-null field name, and no
string-typed index-removal field is silently dropped by the replay loop of
both variants: the state (records, directives, and the corrupt-line
counter) is unchanged — in particular a deletion marker without an
identifier has no effect. -/
theorem treatLine_skips_inert_doc (st : ReplayState) (doc : Doc)
    (h1 : doc.docId = none) (h2 : validIndexCreated doc = none)
    (h3 : doc.indexRemoved = none) :
    treatLine st (some doc) = st := by
  obtain ⟨did, del, ic, ir⟩ := doc
  simp only at h1 h3
  subst h1
  subst h3
  rcases ic with _ | ⟨fn, u, sp⟩
  · rfl
  · rcases fn with _ | f2
    · rfl
    · exact absurd h2 (by simp [validIndexCreated])

/-- C10 witness: a parsed tombstone marker without an identifier (and with
an index-creation wrapper whose field name is null) leaves the replay
state — including the corrupt counter — unchanged. -/
theorem treatLine_skips_inert_doc_witness :
    treatLine ⟨[], [], 3⟩ (some ⟨none, true, some ⟨none, true, false⟩, none⟩) =
      ⟨[], [], 3⟩ :=
  treatLine_skips_inert_doc ⟨[], [], 3⟩ ⟨none, true, some ⟨none, true, false⟩, none⟩
    rfl rfl rfl

/-- C4: `treatRawData` fails if and only if the corrupt-line counter
divided by the total line count strictly exceeds the corruption threshold,
where the counter starts at -1 (so it equals the number of unparseable
lines minus one, exempting one trailing blank line); at exactly the
threshold the load succeeds with the bad lines skipped, and on failure the
`Except.error` carries no state. -/
theorem treatRawData_corruption_threshold (parse : String → Option Doc)
    (corruptAlertThreshold : ℚ) (rawData : String) :
    ((treatRawData parse corruptAlertThreshold rawData).isOk = false ↔
      ((replayDocs ((rawData.splitOn "\n").map parse)).corruptItems : ℚ) /
          ((rawData.splitOn "\n").length : ℚ) > corruptAlertThreshold) ∧
    (replayDocs ((rawData.splitOn "\n").map parse)).corruptItems =
      (((rawData.splitOn "\n").map parse).countP Option.isNone : Int) - 1 := by
  constructor
  · have hpos : (rawData.splitOn "\n").length > 0 := splitOn_length_pos rawData "\n"
    by_cases hc : ((replayDocs ((rawData.splitOn "\n").map parse)).corruptItems : ℚ) /
        ((rawData.splitOn "\n").length : ℚ) > corruptAlertThreshold
    · simp only [treatRawData]
      rw [if_pos ⟨hpos, hc⟩]
      exact iff_of_true rfl hc
    · simp only [treatRawData]
      rw [if_neg (fun hh => hc hh.2)]
      exact iff_of_false (fun hh => Bool.noConfusion hh) hc
  · have hinit : initialReplayState.corruptItems = -1 := rfl
    unfold replayDocs
    rw [foldl_treatLine_corruptItems, hinit]
    omega

/-- C7: the streaming replay variant produces exactly the same result as
the whole-blob variant on equivalent content: for any chunked stream,
`treatRawStream` returns precisely `treatRawData` applied to the
concatenated text — same record set, same directive map, and success or
failure under exactly the same corruption condition, delivered once. -/
theorem treatRawStream_eq_treatRawData (parse : String → Option Doc)
    (corruptAlertThreshold : ℚ) (chunks : List String) :
    treatRawStream parse corruptAlertThreshold chunks =
      treatRawData parse corruptAlertThreshold (String.join chunks) := by
  unfold treatRawStream treatRawData bylineLines replayDocs
  rw [foldl_treatLine_counting]
  simp

/-- C5: compaction writes exactly one line per materialized record plus one
line per index directive whose field is not the primary `_id` index, and
nothing else — the line count handed to the atomic rewrite equals record
count plus non-primary directive count, every line is the serialization of
a record or of a non-`_id` directive (so no tombstones survive), the
`compaction.done` notification is emitted if and only if the rewrite
succeeded, and on success the datafile holds exactly those lines. -/
theorem persistCachedDatabase_compaction {α : Type} (allData : List α)
    (indexes : List (String × IndexOpts)) (ser : α → String)
    (serIdx : String → IndexOpts → String) (fs : FsState)
    (o : RewriteOutcomes) :
    (compactionLines allData indexes ser serIdx).length =
        allData.length + (indexes.filter (fun p => !(p.1 == "_id"))).length ∧
    (∀ line ∈ compactionLines allData indexes ser serIdx,
      (∃ d ∈ allData, line = ser d) ∨
      (∃ p ∈ indexes, p.1 ≠ "_id" ∧ line = serIdx p.1 p.2)) ∧
    ((persistCachedDatabase false allData indexes ser serIdx fs o).emitted = true ↔
      (persistCachedDatabase false allData indexes ser serIdx fs o).err = none) ∧
    ((persistCachedDatabase false allData indexes ser serIdx fs o).emitted = true →
      (persistCachedDatabase false allData indexes ser serIdx fs o).fs.target =
        some (linesToContent (compactionLines allData indexes ser serIdx))) := by
  refine ⟨?_, ?_, ?_, ?_⟩
  · simp [compactionLines]
  · intro line hline
    simp only [compactionLines, List.mem_append, List.mem_map,
      List.mem_filter] at hline
    rcases hline with ⟨d, hd, rfl⟩ | ⟨p, ⟨hp, hp2⟩, rfl⟩
    · exact Or.inl ⟨d, hd, rfl⟩
    · refine Or.inr ⟨p, hp, ?_, rfl⟩
      simpa using hp2
  · simp only [persistCachedDatabase, Bool.false_eq_true, if_false]
    rcases hcr : crashSafeWriteFileLines fs
        (compactionLines allData indexes ser serIdx) o with ⟨fs2, _ | e⟩
    · simp
    · simp
  · simp only [persistCachedDatabase, Bool.false_eq_true, if_false]
    have htarget := crashSafeWriteFileLines_target_of_ok fs
      (compactionLines allData indexes ser serIdx) o
    rcases hcr : crashSafeWriteFileLines fs
        (compactionLines allData indexes ser serIdx) o with ⟨fs2, _ | e⟩
    · rw [hcr] at htarget
      intro hh
      exact htarget rfl
    · intro hh
      exact absurd hh (by simp)

/-- C5 witness: a concrete compaction with two records, a non-primary index
and the `_id` index, over a successful rewrite: line count is 2 + 1, the
notification fires, and the datafile holds exactly those lines. -/
theorem persistCachedDatabase_compaction_witness :
    (compactionLines ["r1", "r2"] [("_id", ⟨true, false⟩), ("name", ⟨false, true⟩)]
        id (fun f _ => f)).length = 2 + 1 ∧
    (persistCachedDatabase false ["r1", "r2"]
        [("_id", ⟨true, false⟩), ("name", ⟨false, true⟩)] id (fun f _ => f)
        ⟨some "old", none⟩ ⟨none, none, none, none, none, none, none⟩).emitted =
      true := by
  have h := persistCachedDatabase_compaction ["r1", "r2"]
    [("_id", ⟨true, false⟩), ("name", ⟨false, true⟩)] id (fun f _ => f)
    ⟨some "old", none⟩ ⟨none, none, none, none, none, none, none⟩
  refine ⟨?_, ?_⟩
  · rw [h.1]
    decide
  · exact h.2.2.1.mpr (by decide)

/-- C6 counterexample: the claim says a reserved-suffix datafile name always
prevents construction regardless of mode, but in in-memory-only mode the
suffix check is skipped (its guard is `!this.inMemoryOnly && this.filename`):
construction succeeds here although the filename ends in the reserved
suffix. -/
theorem persistenceConstructor_suffix_ignored_inMemory :
    (persistenceConstructor (fun _ _ => "")
      ⟨true, some "menu.db~", none, none, none⟩).isOk = true := rfl

/-- C6 (amended): construction fails exactly when (a) the store is not
in-memory-only and the configured filename is truthy and ends in the
reserved suffix, or (b) a serialization hook is supplied without a
deserialization hook, or (c) a deserialization hook is supplied without a
serialization hook, or (d) the (defaulted) hook pair fails the inverse
probe over the sampled strings (lengths 1 through 29, ten samples each);
the suffix check is skipped in in-memory-only mode, the hook checks apply
regardless of mode. -/
theorem persistenceConstructor_validation (sampler : Nat → Nat → String)
    (options : PersistenceOptions) :
    (persistenceConstructor sampler options).isOk = false ↔
      ((options.inMemoryOnly = false ∧ endsInTilde options.filename = true) ∨
       (options.afterSerialization.isSome = true ∧
         options.beforeDeserialization.isNone = true) ∨
       (options.afterSerialization.isNone = true ∧
         options.beforeDeserialization.isSome = true) ∨
       hookProbeFails (options.afterSerialization.getD id)
         (options.beforeDeserialization.getD id) sampler = true) := by
  unfold persistenceConstructor
  split_ifs with h1 h2 h3 h4
  · exact iff_of_true rfl (Or.inl h1)
  · exact iff_of_true rfl (Or.inr (Or.inl h2))
  · exact iff_of_true rfl (Or.inr (Or.inr (Or.inl h3)))
  · exact iff_of_true rfl (Or.inr (Or.inr (Or.inr h4)))
  · refine iff_of_false (fun hh => Bool.noConfusion hh) ?_
    rintro (h | h | h | h)
    · exact h1 h
    · exact h2 h
    · exact h3 h
    · exact h4 h
